import Mathlib

/-!
Shallow embedding of the document-ingestion pipeline of `src/document.c`
(RediSearch).  Pure data is modelled directly; in-place mutation is modelled
by explicit state passing; externally visible actions (completion callback,
pool release, client blocking, worker-pool handoff, shared-index mutation)
are recorded in an explicit event trace.  Machine doubles are abstracted as
integers behind the environment's parse function; the reference counting and
raw memory management of the C code are outside the model.
-/

namespace RediSearch

/-- Error codes used by `document.c` (`QUERY_EDUPFIELD`, `QUERY_EPARSEARGS`,
`QUERY_EGEOFORMAT`, `QUERY_ENODOC`, `QUERY_EGENERIC`). -/
inductive QueryErrorCode
  | ok
  | eDupField
  | eParseArgs
  | eGeoFormat
  | eNoDoc
  | eGeneric
  deriving DecidableEq, Repr

/-- Status object: a code plus an optional human readable detail string. -/
structure QueryError where
  code : QueryErrorCode := QueryErrorCode.ok
  detail : Option String := none
  deriving DecidableEq, Repr

/-- `#define DUP_FIELD_ERRSTR "Requested to index field twice"` -/
def DUP_FIELD_ERRSTR : String := "Requested to index field twice"

/-- Modelled from the spec: `QueryError_SetCode` (query_error.c is not in
src/) records a code only when no error has been recorded yet. -/
def QueryError_SetCode (st : QueryError) (c : QueryErrorCode) : QueryError :=
  if st.code = QueryErrorCode.ok then { st with code := c } else st

/-- Modelled from the spec: `QueryError_SetError` records a code and detail
string only when no error has been recorded yet. -/
def QueryError_SetError (st : QueryError) (c : QueryErrorCode) (d : String) : QueryError :=
  if st.code = QueryErrorCode.ok then { code := c, detail := some d } else st

/-- `QueryError_SetErrorFmt`: same as `QueryError_SetError` with the detail
string already formatted. -/
def QueryError_SetErrorFmt (st : QueryError) (c : QueryErrorCode) (d : String) : QueryError :=
  QueryError_SetError st c d

/-- Field types handled by the dispatch table in `document.c`. -/
inductive FieldType
  | fulltext
  | numeric
  | geo
  | tag
  deriving DecidableEq, Repr

/-- Schema entry for one field (subset of `FieldSpec` read by document.c):
name, type, sortable/indexable flags, schema ordinal `index`, sort-vector
slot `sortIdx`. -/
structure FieldSpec where
  name : String
  ftype : FieldType
  sortable : Bool := false
  indexable : Bool := true
  index : Nat := 0
  sortIdx : Int := 0
  noStem : Bool := false
  phonetics : Bool := false
  deriving DecidableEq, Repr

/-- A document field: a name and a raw value (`text`); `none` models a NULL
`RedisModuleString`. -/
structure DocumentField where
  name : String
  text : Option String := none
  deriving DecidableEq, Repr

/-- A document: key, id, score, optional payload, language and fields. -/
structure Document where
  docKey : String := ""
  docId : Nat := 0
  score : Int := 0
  payload : Option String := none
  language : String := ""
  fields : List DocumentField := []
  deriving DecidableEq, Repr

/-- Index schema (subset of `IndexSpec` read by document.c). -/
structure IndexSpec where
  name : String := ""
  fields : List FieldSpec := []
  sortablesLen : Nat := 0
  storeByteOffsets : Bool := false
  temporary : Bool := false
  deriving DecidableEq, Repr

/-- Modelled from the spec: `IndexSpec_GetField` (spec.c is not in src/)
resolves a document field name against the schema. -/
def IndexSpec_GetField (sp : IndexSpec) (nm : String) : Option FieldSpec :=
  sp.fields.find? (fun fs => fs.name == nm)

/-- Modelled from the spec: `IndexSpec_GetFieldSortingIndex` returns the
sort-vector slot of a sortable schema field and `-1` otherwise. -/
def IndexSpec_GetFieldSortingIndex (sp : IndexSpec) (nm : String) : Int :=
  match IndexSpec_GetField sp nm with
  | some fs => if fs.sortable then fs.sortIdx else -1
  | none => -1

/-- A value stored in a sort vector slot (`RS_SORTABLE_STR` / `RS_SORTABLE_NUM`). -/
inductive SortVal
  | str (s : String)
  | num (n : Int)
  deriving DecidableEq, Repr

/-- Sort vector: slot count plus the log of slot writes (most recent first). -/
structure RSSortingVector where
  len : Nat
  entries : List (Nat × SortVal) := []
  deriving DecidableEq, Repr

/-- Modelled from the spec: `NewSortingVector` allocates an empty vector. -/
def NewSortingVector (n : Nat) : RSSortingVector := { len := n }

/-- Modelled from the spec: `RSSortingVector_Put` writes a value into a slot. -/
def RSSortingVector_Put (sv : RSSortingVector) (idx : Int) (v : SortVal) : RSSortingVector :=
  { sv with entries := (idx.toNat, v) :: sv.entries }

/-- Apply `RSSortingVector_Put` through an optional pointer. -/
def svPutOpt (sv : Option RSSortingVector) (idx : Int) (v : SortVal) : Option RSSortingVector :=
  sv.map (fun s => RSSortingVector_Put s idx v)

/-- Typed per-field scratch data (`fieldData` union in document.c). -/
inductive FieldData
  | unset
  | numeric (n : Int)
  | geo (slon slat : String)
  | tags (ts : Option (List String))
  deriving DecidableEq, Repr

/-- `ACTX_F_*` state flags of the ingestion context. -/
structure StateFlags where
  sortables : Bool := false
  indexables : Bool := false
  textIndexed : Bool := false
  otherIndexed : Bool := false
  noBlock : Bool := false
  deriving DecidableEq, Repr

/-- `DOCUMENT_ADD_*` options passed to `AddDocumentCtx_Submit`. -/
structure AddOpts where
  partialFlag : Bool := false
  nosave : Bool := false
  deriving DecidableEq, Repr

/-- The ingestion context (`RSAddDocumentCtx`).  The forward-index builder is
modelled as the list of tokens written into it. -/
structure RSAddDocumentCtx where
  doc : Document := {}
  fspecs : List (Option FieldSpec) := []
  fdatas : List FieldData := []
  sv : Option RSSortingVector := none
  fwIdx : Option (List String) := none
  totalTokens : Nat := 0
  byteOffsets : Bool := false
  flags : StateFlags := {}
  status : QueryError := {}
  options : AddOpts := {}
  donecb : Bool := true

/-- Externally visible actions of the pipeline, in order of occurrence. -/
inductive Event
  | callback (code : QueryErrorCode)
  | release
  | blockClient
  | unblockClient
  | threadPoolRun
  | schedule (offload : Bool)
  | loadDoc (names : List String)
  | bulkAdd (t : FieldType)
  | commitFwd
  deriving DecidableEq, Repr

/-- External collaborators: the host string-to-double parser, the tokenizer,
the tag preprocessor, the document store loader, and the indexer submission
outcome.  All are outside src/ and abstracted as oracle functions. -/
structure Env where
  parseDouble : String → Option Int
  tokenize : String → List String := fun _ => []
  tagPreprocess : String → Option (List String) := fun _ => none
  loadDocument : String → List String → Option (List DocumentField) := fun _ _ => none
  indexerOk : Bool := true

/-- Modelled from the spec: document metadata holds score, payload and sort
vector (`RSDocumentMetadata` lives outside src/). -/
structure RSDocumentMetadata where
  score : Int := 0
  payload : Option String := none
  sortVector : Option RSSortingVector := none
  deriving DecidableEq, Repr

/-- Search context: the schema plus the document table, modelled as lookup
functions (`DocTable_GetIdR` returns 0 for a missing key). -/
structure RedisSearchCtx where
  spec : IndexSpec := {}
  docIds : String → Nat := fun _ => 0
  docMds : Nat → Option RSDocumentMetadata := fun _ => none

/-- `realloc` of a scratch array to exactly `n` entries: the common prefix is
preserved, fresh entries are uninitialised (modelled by the default value). -/
def resizeTo {α : Type} (l : List α) (n : Nat) (d : α) : List α :=
  l.take n ++ List.replicate (n - l.length) d

/-- Accumulator of the attachment loop of `AddDocumentCtx_SetDocument`:
the dedup marker set (schema ordinals already resolved), the in-loop
`ACTX_F_SORTABLES` bit and the post-loop summary locals. -/
structure SetDocAcc where
  dedupe : List Nat := []
  sortables : Bool := false
  hasText : Bool := false
  hasOther : Bool := false
  numIndexable : Nat := 0
  deriving DecidableEq, Repr

/-- Accumulator update of one successful resolution step (document.c lines
72-86): mark the ordinal in the dedup set and fold the field's flags into
the summary locals. -/
def setDocAccStep (acc : SetDocAcc) (fs : FieldSpec) : SetDocAcc :=
  let acc1 := { acc with dedupe := fs.index :: acc.dedupe }
  let acc2 := if fs.sortable then { acc1 with sortables := true } else acc1
  if fs.indexable then
    if fs.ftype = FieldType.fulltext then
      { acc2 with hasText := true, numIndexable := acc2.numIndexable + 1 }
    else
      { acc2 with hasOther := true }
  else acc2

/-- The per-field loop of `AddDocumentCtx_SetDocument` (document.c lines
60-91): resolve each field against the schema, reject a second resolution of
the same schema ordinal with the Duplicate-Field detail string, accumulate
the summary flags.  Returns the rewritten spec-slot array (stale tail kept on
early error, as the C array keeps its old contents), the accumulator, and the
duplicate error detail when attachment aborts. -/
def setDocLoop (sp : IndexSpec) (fields : List DocumentField)
    (olds : List (Option FieldSpec)) (acc : SetDocAcc) :
    List (Option FieldSpec) × SetDocAcc × Option String :=
  match fields, olds with
  | [], rest => (rest, acc, none)
  | _ :: _, [] => ([], acc, none)
  | f :: ftl, _ :: otl =>
    match IndexSpec_GetField sp f.name, f.text with
    | some fs, some _ =>
      if fs.index ∈ acc.dedupe then
        (some fs :: otl, acc, some ("Tried to insert `" ++ fs.name ++ "` twice"))
      else
        let r := setDocLoop sp ftl otl (setDocAccStep acc fs)
        (some fs :: r.1, r.2)
    | _, _ =>
      let r := setDocLoop sp ftl otl acc
      (none :: r.1, r.2)

/-- `AddDocumentCtx_SetDocument` (document.c lines 42-116): store the
document, resize the scratch arrays when the field count grew, run the
resolution loop, then derive the summary state flags, allocate the sort
vector when a sortable field was seen, and allocate byte-offset tracking when
requested.  Returns the updated context and 0, or the context with the
Duplicate-Field error and -1. -/
def AddDocumentCtx_SetDocument (aCtx : RSAddDocumentCtx) (sp : IndexSpec)
    (base : Document) (oldFieldCount : Nat) : RSAddDocumentCtx × Int :=
  let n := base.fields.length
  let fspecs := if oldFieldCount < n then resizeTo aCtx.fspecs n none else aCtx.fspecs
  let fdatas := if oldFieldCount < n then resizeTo aCtx.fdatas n FieldData.unset else aCtx.fdatas
  match setDocLoop sp base.fields fspecs {} with
  | (specs, acc, some d) =>
    ({ aCtx with
        doc := base, fspecs := specs, fdatas := fdatas,
        flags := { aCtx.flags with sortables := aCtx.flags.sortables || acc.sortables },
        status := QueryError_SetErrorFmt aCtx.status QueryErrorCode.eDupField d }, -1)
  | (specs, acc, none) =>
    let flags0 := { aCtx.flags with sortables := aCtx.flags.sortables || acc.sortables }
    let flags1 := if acc.hasText || acc.hasOther then { flags0 with indexables := true } else flags0
    let flags2 := if !acc.hasText then { flags1 with textIndexed := true } else flags1
    let flags3 := if !acc.hasOther then { flags2 with otherIndexed := true } else flags2
    let sv := if flags3.sortables && aCtx.sv.isNone
then some (NewSortingVector sp.sortablesLen) else aCtx.sv
    let byteOffsets :=
      if !aCtx.options.nosave && acc.numIndexable != 0 && sp.storeByteOffsets
then true else aCtx.byteOffsets
    ({ aCtx with
        doc := base, fspecs := specs, fdatas := fdatas,
        flags := flags3, sv := sv, byteOffsets := byteOffsets }, 0)

/-- Context state after the reset performed at the top of
`NewAddDocumentCtx` (document.c lines 125-135) on a pooled context. -/
def newCtxReset (recycled : RSAddDocumentCtx) : RSAddDocumentCtx :=
  { recycled with flags := {}, status := {}, totalTokens := 0 }

/-- `NewAddDocumentCtx` (document.c lines 118-166): acquire and reset a
pooled context, attach the document; on attachment failure copy the error
into the caller status, release the context to the pool and return NULL
(no completion callback is involved); on success reset the forward index and
zero the document id. -/
def NewAddDocumentCtx (sp : IndexSpec) (recycled : RSAddDocumentCtx) (b : Document) :
    Option RSAddDocumentCtx × QueryError × List Event :=
  let aCtx := newCtxReset recycled
  match AddDocumentCtx_SetDocument aCtx sp b aCtx.doc.fields.length with
  | (aCtx1, rc) =>
    if rc ≠ 0 then
      (none, aCtx1.status, [Event.release])
    else
      (some { aCtx1 with fwIdx := some [], doc := { aCtx1.doc with docId := 0 } }, {}, [])

/-- The context state a preprocessor may touch: the sort vector, the private
forward-index builder and the token counter. -/
structure PPState where
  sv : Option RSSortingVector := none
  fwIdx : Option (List String) := none
  totalTokens : Nat := 0
  deriving DecidableEq, Repr

/-- Result of one preprocessor run: updated context state, the (possibly
rewritten in place) raw field, the scratch data, the status and the return
code. -/
structure PPRes where
  st : PPState
  field : DocumentField
  fdata : FieldData
  status : QueryError
  rc : Int
  deriving DecidableEq, Repr

/-- `fulltextPreprocessor` (document.c lines 333-376): copy a sortable value
into the sort vector, then tokenize an indexable value into the private
forward-index builder (token position bookkeeping abstracted to counting). -/
def fulltextPreprocessor (env : Env) (st : PPState) (field : DocumentField)
    (fs : FieldSpec) (fdata : FieldData) (status : QueryError) : PPRes :=
  let c := field.text.getD ""
  let st1 := if fs.sortable
then { st with sv := svPutOpt st.sv fs.sortIdx (SortVal.str c) } else st
  let st2 :=
    if fs.indexable then
      let toks := env.tokenize c
      { st1 with fwIdx := st1.fwIdx.map (fun l => l ++ toks),
                 totalTokens := st1.totalTokens + toks.length }
    else st1
  { st := st2, field := field, fdata := fdata, status := status, rc := 0 }

/-- `numericPreprocessor` (document.c lines 378-389): parse the raw value as
a double; on failure set `QUERY_EPARSEARGS` and return -1; on success store
the value and copy it into the sort vector when the field is sortable. -/
def numericPreprocessor (env : Env) (st : PPState) (field : DocumentField)
    (fs : FieldSpec) (fdata : FieldData) (status : QueryError) : PPRes :=
  match env.parseDouble (field.text.getD "") with
  | none =>
    { st := st, field := field, fdata := fdata,
      status := QueryError_SetCode status QueryErrorCode.eParseArgs, rc := -1 }
  | some v =>
    let st1 := if fs.sortable
then { st with sv := svPutOpt st.sv fs.sortIdx (SortVal.num v) } else st
    { st := st1, field := field, fdata := FieldData.numeric v, status := status, rc := 0 }

/-- `strpbrk(c, " ,")` followed by the in-place split of the geo value:
returns the text before the first space/comma and the text after it. -/
def strpbrkSplit (s : String) : Option (String × String) :=
  match s.toList.findIdx? (fun c => c == ' ' || c == ',') with
  | none => none
  | some i => some (String.mk (s.toList.take i), String.mk (s.toList.drop (i + 1)))

/-- `geoPreprocessor` (document.c lines 404-416): split the raw value at the
first space/comma into lon/lat; the separator is overwritten with NUL in
place, truncating the raw field value; no separator is `QUERY_EGEOFORMAT`. -/
def geoPreprocessor (st : PPState) (field : DocumentField)
    (_fs : FieldSpec) (fdata : FieldData) (status : QueryError) : PPRes :=
  match strpbrkSplit (field.text.getD "") with
  | none =>
    { st := st, field := field, fdata := fdata,
      status := QueryError_SetCode status QueryErrorCode.eGeoFormat, rc := -1 }
  | some (lon, lat) =>
    { st := st, field := { field with text := some lon },
      fdata := FieldData.geo lon lat, status := status, rc := 0 }

/-- `tagPreprocessor` (document.c lines 429-442): preprocess the tags; a NULL
tag list is accepted as-is; otherwise a sortable field value is copied into
the sort vector. -/
def tagPreprocessor (env : Env) (st : PPState) (field : DocumentField)
    (fs : FieldSpec) (_fdata : FieldData) (status : QueryError) : PPRes :=
  match env.tagPreprocess (field.text.getD "") with
  | none => { st := st, field := field, fdata := FieldData.tags none, status := status, rc := 0 }
  | some ts =>
    let st1 := if fs.sortable
then { st with sv := svPutOpt st.sv fs.sortIdx (SortVal.str (field.text.getD "")) } else st
    { st := st1, field := field, fdata := FieldData.tags (some ts), status := status, rc := 0 }

/-- `GetIndexPreprocessor` (document.c lines 464-477): the field dispatch
table from declared type to preprocessor. -/
def GetIndexPreprocessor (env : Env) (ft : FieldType) :
    PPState → DocumentField → FieldSpec → FieldData → QueryError → PPRes :=
  match ft with
  | FieldType.fulltext => fulltextPreprocessor env
  | FieldType.numeric => numericPreprocessor env
  | FieldType.geo => geoPreprocessor
  | FieldType.tag => tagPreprocessor env

/-- The preprocessing loop of `Document_AddToIndexes` (document.c lines
501-519): fields with no resolved spec are skipped; the first preprocessor
failure aborts the pass.  Returns the rewritten field and scratch arrays,
the final context state and status, and the success flag. -/
def ppLoop (env : Env) (fields : List DocumentField) (fspecs : List (Option FieldSpec))
    (fdatas : List FieldData) (st : PPState) (status : QueryError) :
    List DocumentField × List FieldData × PPState × QueryError × Bool :=
  match fields, fspecs, fdatas with
  | f :: ftl, os :: otl, fd :: fdtl =>
    match os with
    | none =>
      let r := ppLoop env ftl otl fdtl st status
      (f :: r.1, fd :: r.2.1, r.2.2)
    | some fs =>
      let p := GetIndexPreprocessor env fs.ftype st f fs fd status
      if p.rc ≠ 0 then
        (p.field :: ftl, p.fdata :: fdtl, p.st, p.status, false)
      else
        let r := ppLoop env ftl otl fdtl p.st p.status
        (p.field :: r.1, p.fdata :: r.2.1, r.2.2)
  | fl, _, dl => (fl, dl, st, status, true)

/-- `AddDocumentCtx_Free` (document.c lines 288-317): tear down per-document
resources and return the context to the pool. -/
def AddDocumentCtx_Free (_aCtx : RSAddDocumentCtx) : List Event :=
  [Event.release]

/-- `doReplyFinish` (document.c lines 168-173): invoke the done callback when
one was supplied, then free the context. -/
def doReplyFinish (aCtx : RSAddDocumentCtx) : List Event :=
  (if aCtx.donecb then [Event.callback aCtx.status.code] else []) ++ AddDocumentCtx_Free aCtx

/-- `AddDocumentCtx_Finish` (document.c lines 185-191).  Modelled from the
spec for the blocked-client half: `RedisModule_UnblockClient` resumes the
blocked client, whose reply callback runs `doReplyFinish` exactly once. -/
def AddDocumentCtx_Finish (aCtx : RSAddDocumentCtx) : List Event :=
  if aCtx.flags.noBlock then
    doReplyFinish aCtx
  else
    Event.unblockClient :: doReplyFinish aCtx

/-- The shared-index mutations performed by the indexer for one document:
one bulk Add per attached non-text field plus the forward-index commit. -/
def bulkAddEvents (aCtx : RSAddDocumentCtx) : List Event :=
  (aCtx.fspecs.filterMap (fun os =>
    match os with
    | some fs =>
      if fs.ftype = FieldType.fulltext then none else some (Event.bulkAdd fs.ftype)
    | none => none)) ++ [Event.commitFwd]

/-- Modelled from the spec: `Indexer_Add` (indexer.c is not in src/) either
accepts the context — applying the bulk indexers, committing the private
forward index and running the completion protocol — and returns 0, or fails
to submit and returns nonzero without taking ownership (spec sections 4.6
and 4.7). -/
def Indexer_Add (env : Env) (aCtx : RSAddDocumentCtx) : Int × List Event :=
  if env.indexerOk then
    (0, bulkAddEvents aCtx ++ AddDocumentCtx_Finish aCtx)
  else
    (1, [])

/-- The context state handed to the preprocessing loop. -/
def ctxPPState (aCtx : RSAddDocumentCtx) : PPState :=
  { sv := aCtx.sv, fwIdx := aCtx.fwIdx, totalTokens := aCtx.totalTokens }

/-- Success flag of the preprocessing pass of `Document_AddToIndexes`. -/
def ppLoopOk (env : Env) (aCtx : RSAddDocumentCtx) : Bool :=
  (ppLoop env aCtx.doc.fields aCtx.fspecs aCtx.fdatas (ctxPPState aCtx) aCtx.status).2.2.2.2

/-- `Document_AddToIndexes` (document.c lines 497-532): run the preprocessing
loop; on failure, or on indexer-submission failure, set a generic error code
and finish; on successful submission the indexer owns completion. -/
def Document_AddToIndexes (env : Env) (aCtx : RSAddDocumentCtx) : Int × List Event :=
  match ppLoop env aCtx.doc.fields aCtx.fspecs aCtx.fdatas (ctxPPState aCtx) aCtx.status with
  | (fl, dl, st, q, ok) =>
    let aCtx1 := { aCtx with
      doc := { aCtx.doc with fields := fl }, fdatas := dl,
      sv := st.sv, fwIdx := st.fwIdx, totalTokens := st.totalTokens, status := q }
    if ok then
      match Indexer_Add env aCtx1 with
      | (0, ev) => (0, ev)
      | (_, _) =>
        let aCtx2 := { aCtx1 with status := QueryError_SetCode aCtx1.status QueryErrorCode.eGeneric }
        (1, AddDocumentCtx_Finish aCtx2)
    else
      let aCtx2 := { aCtx1 with status := QueryError_SetCode aCtx1.status QueryErrorCode.eGeneric }
      (1, AddDocumentCtx_Finish aCtx2)

/-- `AddDocumentCtx_ReplaceMerge` (document.c lines 206-245): discard the
detached field values, load the current stored value of every schema field
of the document, and re-run attachment over the loaded set (the attachment
return value is discarded by the C code).  A load failure is a fatal
`QUERY_ENODOC` that runs the completion protocol directly. -/
def AddDocumentCtx_ReplaceMerge (env : Env) (aCtx : RSAddDocumentCtx)
    (sctx : RedisSearchCtx) : Int × RSAddDocumentCtx × List Event :=
  let oldFieldCount := aCtx.doc.fields.length
  let aCtx0 := { aCtx with doc := { aCtx.doc with fields := [] } }
  let toLoad := sctx.spec.fields.map (fun fs => fs.name)
  match env.loadDocument aCtx0.doc.docKey toLoad with
  | none =>
    let aCtx1 := { aCtx0 with
      status := QueryError_SetError aCtx0.status QueryErrorCode.eNoDoc
        "Could not load existing document" }
    (1, aCtx1, Event.loadDoc toLoad :: Event.callback aCtx1.status.code :: AddDocumentCtx_Free aCtx1)
  | some loaded =>
    let aCtx1 := { aCtx0 with doc := { aCtx0.doc with fields := loaded } }
    let r := AddDocumentCtx_SetDocument aCtx1 sctx.spec aCtx1.doc oldFieldCount
    (0, r.1, [Event.loadDoc toLoad])

/-- Apply the score and payload writes of `AddDocumentCtx_UpdateNoIndex`
(document.c lines 610-615) to the metadata record. -/
def mdApplyScorePayload (md : RSDocumentMetadata) (doc : Document) : RSDocumentMetadata :=
  let md1 := { md with score := doc.score }
  match doc.payload with
  | some p => { md1 with payload := some p }
  | none => md1

/-- The sortable-field loop of `AddDocumentCtx_UpdateNoIndex` (document.c
lines 617-658): its own dedup pass over schema ordinals, sort-vector slot
writes for full-text and numeric sortable fields, and the three BAIL error
strings.  Returns the metadata as mutated so far plus the error detail. -/
def updLoop (env : Env) (sp : IndexSpec) (fields : List DocumentField)
    (dedupes : List Nat) (md : RSDocumentMetadata) :
    RSDocumentMetadata × Option String :=
  match fields with
  | [] => (md, none)
  | f :: rest =>
    match IndexSpec_GetField sp f.name with
    | none => updLoop env sp rest dedupes md
    | some fs =>
      if !fs.sortable then updLoop env sp rest dedupes md
      else if fs.index ∈ dedupes then (md, some DUP_FIELD_ERRSTR)
      else
        let dedupes1 := fs.index :: dedupes
        let idx := IndexSpec_GetFieldSortingIndex sp f.name
        if idx < 0 then updLoop env sp rest dedupes1 md
        else
          let md1 := if md.sortVector.isNone
then { md with sortVector := some (NewSortingVector sp.sortablesLen) } else md
          match fs.ftype with
          | FieldType.fulltext =>
            let md2 := { md1 with
              sortVector := svPutOpt md1.sortVector idx (SortVal.str (f.text.getD "")) }
            updLoop env sp rest dedupes1 md2
          | FieldType.numeric =>
            match env.parseDouble (f.text.getD "") with
            | none => (md1, some "Could not parse numeric index value")
            | some v =>
              let md2 := { md1 with sortVector := svPutOpt md1.sortVector idx (SortVal.num v) }
              updLoop env sp rest dedupes1 md2
          | _ => (md1, some "Unsupported sortable type")

/-- `AddDocumentCtx_UpdateNoIndex` (document.c lines 593-663): look up the
document id and metadata; update score and payload in place; when sortable
fields are attached run the sortable loop; in every case (success or BAIL)
run the done callback and free the context. -/
def AddDocumentCtx_UpdateNoIndex (env : Env) (aCtx : RSAddDocumentCtx)
    (sctx : RedisSearchCtx) : RedisSearchCtx × List Event :=
  let doc := aCtx.doc
  let docId := sctx.docIds doc.docKey
  if docId = 0 then
    let st := QueryError_SetError aCtx.status QueryErrorCode.eGeneric "Couldn't load old document"
    (sctx, [Event.callback st.code, Event.release])
  else
    match sctx.docMds docId with
    | none =>
      let st := QueryError_SetError aCtx.status QueryErrorCode.eGeneric
        "Couldn't load document metadata"
      (sctx, [Event.callback st.code, Event.release])
    | some md =>
      let md1 := mdApplyScorePayload md doc
      let r := if aCtx.flags.sortables
then updLoop env sctx.spec doc.fields [] md1 else (md1, none)
      let st := match r.2 with
        | some d => QueryError_SetError aCtx.status QueryErrorCode.eGeneric d
        | none => aCtx.status
      let sctx1 := { sctx with
        docMds := fun i => if i = docId then some r.1 else sctx.docMds i }
      (sctx1, [Event.callback st.code, Event.release])

/-- `handlePartialUpdate` (document.c lines 247-258): reindex branch when any
attached field is indexable, metadata-only branch otherwise. -/
def handlePartialUpdate (env : Env) (aCtx : RSAddDocumentCtx) (sctx : RedisSearchCtx) :
    Int × RSAddDocumentCtx × RedisSearchCtx × List Event :=
  if aCtx.flags.indexables then
    match AddDocumentCtx_ReplaceMerge env aCtx sctx with
    | (rc, aCtx1, ev) => (rc, aCtx1, sctx, ev)
  else
    match AddDocumentCtx_UpdateNoIndex env aCtx sctx with
    | (sctx1, ev) => (1, aCtx, sctx1, ev)

/-- Modelled from the spec: `AddDocumentCtx_IsBlockable` — a No-Block request
forbids suspending the caller (glossary and section 4.5). -/
def AddDocumentCtx_IsBlockable (aCtx : RSAddDocumentCtx) : Bool :=
  !aCtx.flags.noBlock

/-- `#define SELF_EXEC_THRESHOLD 1024` (document.c line 194). -/
def SELF_EXEC_THRESHOLD : Nat := 1024

/-- The payload-size sum of `AddDocumentCtx_Submit` (document.c lines
271-279): the byte lengths of the raw values of attached full-text and tag
fields. -/
def submitTotalSize (fields : List DocumentField) (fspecs : List (Option FieldSpec)) : Nat :=
  match fields, fspecs with
  | f :: ftl, os :: otl =>
    (match os with
     | some fs =>
       if fs.ftype = FieldType.fulltext ∨ fs.ftype = FieldType.tag then
         (f.text.getD "").utf8ByteSize
       else 0
     | none => 0) + submitTotalSize ftl otl
  | _, _ => 0

/-- The offload decision of `AddDocumentCtx_Submit` (document.c line 281). -/
def submitOffload (aCtx : RSAddDocumentCtx) : Bool :=
  decide (submitTotalSize aCtx.doc.fields aCtx.fspecs ≥ SELF_EXEC_THRESHOLD)
    && AddDocumentCtx_IsBlockable aCtx

/-- The scheduling tail of `AddDocumentCtx_Submit` (document.c lines
265-286): block the client when allowed, then either hand the context to the
worker pool or run `Document_AddToIndexes` inline.  The `schedule` event
records the single offload decision. -/
def submitSched (env : Env) (aCtx : RSAddDocumentCtx) : List Event :=
  let bev := if AddDocumentCtx_IsBlockable aCtx then [Event.blockClient] else []
  let off := submitOffload aCtx
  bev ++ Event.schedule off ::
    (if off then [Event.threadPoolRun] else []) ++ (Document_AddToIndexes env aCtx).2

/-- `AddDocumentCtx_Submit` (document.c lines 260-286): store the options;
a partial update whose coordinator reports completion returns immediately;
otherwise fall through to the scheduling tail. -/
def AddDocumentCtx_Submit (env : Env) (aCtx : RSAddDocumentCtx) (sctx : RedisSearchCtx)
    (options : AddOpts) : RedisSearchCtx × List Event :=
  let aCtx0 := { aCtx with options := options }
  if options.partialFlag then
    match handlePartialUpdate env aCtx0 sctx with
    | (rc, aCtx1, sctx1, ev) =>
      if rc ≠ 0 then (sctx1, ev)
      else (sctx1, ev ++ submitSched env aCtx1)
  else (sctx, submitSched env aCtx0)

/-- The schema ordinals resolved by the attachment loop, in document field
order: one entry per field that is in the schema and carries a value. -/
def resolvedOrds (sp : IndexSpec) : List DocumentField → List Nat
  | [] => []
  | f :: ftl =>
    match IndexSpec_GetField sp f.name, f.text with
    | some fs, some _ => fs.index :: resolvedOrds sp ftl
    | _, _ => resolvedOrds sp ftl

/-- Does scanning `ords` left to right, against the already-seen set `seen`,
hit an ordinal twice? -/
def ordClash (seen : List Nat) : List Nat → Bool
  | [] => false
  | o :: rest => if o ∈ seen then true else ordClash (o :: seen) rest

/-- Completion-protocol events: the done callback and the pool release. -/
def isCbRel : Event → Bool
  | Event.callback _ => true
  | Event.release => true
  | _ => false

/-- The scheduling-decision event. -/
def isSchedEvt : Event → Bool
  | Event.schedule _ => true
  | _ => false

/-- Shared structural index mutations: bulk Adds and forward-index commit. -/
def isIndexMut : Event → Bool
  | Event.bulkAdd _ => true
  | Event.commitFwd => true
  | _ => false

/-! ## Concrete fixtures used by the witnesses -/

/-- Witness environment: only "3" parses as a number. -/
def wEnv : Env := { parseDouble := fun s => if s = "3" then some 3 else none }

/-- Witness schema field: sortable indexable full-text. -/
def wFsT : FieldSpec :=
  { name := "t", ftype := FieldType.fulltext, sortable := true, index := 0, sortIdx := 0 }

/-- Witness schema field: sortable indexable numeric. -/
def wFsN : FieldSpec :=
  { name := "n", ftype := FieldType.numeric, sortable := true, index := 1, sortIdx := 1 }

/-- Witness schema field: sortable geo (an unsupported sortable type for the
metadata-only branch). -/
def wFsG : FieldSpec :=
  { name := "g", ftype := FieldType.geo, sortable := true, index := 2, sortIdx := 2 }

/-- Witness schema field: tag. -/
def wFsA : FieldSpec := { name := "a", ftype := FieldType.tag, index := 3 }

/-- Witness schema. -/
def wSpec : IndexSpec := { fields := [wFsT, wFsN, wFsG, wFsA], sortablesLen := 3 }

/-- Witness document naming the same schema field twice. -/
def wDocDup : Document :=
  { docKey := "k", fields := [{ name := "t", text := some "x" }, { name := "t", text := some "y" }] }

/-- Witness document with one full-text field. -/
def wDocT : Document := { docKey := "k", fields := [{ name := "t", text := some "hello" }] }

/-- Witness document with one unparsable numeric field. -/
def wDocBad : Document := { docKey := "k", fields := [{ name := "n", text := some "abc" }] }

/-- Witness search context: key "k" is document 1 with empty metadata. -/
def wSctx : RedisSearchCtx :=
  { spec := wSpec, docIds := fun s => if s = "k" then 1 else 0,
    docMds := fun i => if i = 1 then some {} else none }

/-- Witness context attached to `wDocT`. -/
def wCtxT : RSAddDocumentCtx := ((NewAddDocumentCtx wSpec {} wDocT).1).getD {}

/-- Witness context attached to `wDocBad`. -/
def wCtxBad : RSAddDocumentCtx := ((NewAddDocumentCtx wSpec {} wDocBad).1).getD {}

/-- Witness context for the metadata-only branch: sortable fields attached
(the same full-text field twice), no indexable flag. -/
def wCtxDup : RSAddDocumentCtx :=
  { doc := wDocDup, flags := { sortables := true } }

/-! ## Supporting lemmas -/

theorem resizeTo_length {α : Type} (l : List α) (n : Nat) (d : α) :
    (resizeTo l n d).length = n := by
  simp [resizeTo]
  omega

theorem setDocAccStep_dedupe (acc : SetDocAcc) (fs : FieldSpec) :
    (setDocAccStep acc fs).dedupe = fs.index :: acc.dedupe := by
  simp only [setDocAccStep]
  cases hs : fs.sortable <;> cases hi : fs.indexable <;>
    by_cases hf : fs.ftype = FieldType.fulltext <;> simp [hs, hi, hf]

theorem ordClash_of_not_nodup (ords : List Nat) :
    ∀ seen : List Nat, seen.Nodup → ¬ (seen ++ ords).Nodup →
      ordClash seen ords = true := by
  induction ords with
  | nil =>
    intro seen hseen h
    simp at h
    exact absurd hseen h
  | cons o rest ih =>
    intro seen hseen h
    by_cases ho : o ∈ seen
    · simp [ordClash, ho]
    · simp only [ordClash]
      rw [if_neg ho]
      apply ih (o :: seen) (List.nodup_cons.mpr ⟨ho, hseen⟩)
      intro hnd
      apply h
      have hperm : (seen ++ o :: rest).Perm (o :: (seen ++ rest)) := List.perm_middle
      rw [hperm.nodup_iff]
      simpa using hnd

theorem setDocLoop_some_of_clash (sp : IndexSpec) (fields : List DocumentField) :
    ∀ (olds : List (Option FieldSpec)) (acc : SetDocAcc),
      fields.length ≤ olds.length →
      ordClash acc.dedupe (resolvedOrds sp fields) = true →
      (setDocLoop sp fields olds acc).2.2.isSome := by
  induction fields with
  | nil =>
    intro olds acc _ hcl
    simp [resolvedOrds, ordClash] at hcl
  | cons f ftl ih =>
    intro olds acc hlen hcl
    match olds with
    | [] => simp at hlen
    | o :: otl =>
      have hlen' : ftl.length ≤ otl.length := by simpa using hlen
      cases hg : IndexSpec_GetField sp f.name with
      | none =>
        have hro : resolvedOrds sp (f :: ftl) = resolvedOrds sp ftl := by
          cases ht : f.text <;> simp [resolvedOrds, hg, ht]
        rw [hro] at hcl
        cases ht : f.text <;>
          simpa [setDocLoop, hg, ht] using ih otl acc hlen' hcl
      | some fs =>
        cases ht : f.text with
        | none =>
          have hro : resolvedOrds sp (f :: ftl) = resolvedOrds sp ftl := by
            simp [resolvedOrds, hg, ht]
          rw [hro] at hcl
          simpa [setDocLoop, hg, ht] using ih otl acc hlen' hcl
        | some s =>
          have hro : resolvedOrds sp (f :: ftl) = fs.index :: resolvedOrds sp ftl := by
            simp [resolvedOrds, hg, ht]
          rw [hro] at hcl
          by_cases hd : fs.index ∈ acc.dedupe
          · simp [setDocLoop, hg, ht, hd]
          · simp only [ordClash] at hcl
            rw [if_neg hd] at hcl
            have hrec := ih otl (setDocAccStep acc fs) hlen'
              (by rw [setDocAccStep_dedupe]; exact hcl)
            simpa [setDocLoop, hg, ht, hd] using hrec

/-! ## Claim theorems -/

/-- Claim C2: a document whose fields resolve the same schema field twice
makes attachment (`AddDocumentCtx_SetDocument`) fail with the Duplicate-Field
error and return -1 immediately, with no sort-vector allocation and no
forward-index mutation in that attachment pass. -/
theorem attach_duplicate_field_aborts (aCtx : RSAddDocumentCtx) (sp : IndexSpec)
    (base : Document) (oldFieldCount : Nat)
    (hlen : oldFieldCount < base.fields.length ∨ base.fields.length ≤ aCtx.fspecs.length)
    (hok : aCtx.status.code = QueryErrorCode.ok)
    (hdup : ¬ (resolvedOrds sp base.fields).Nodup) :
    (AddDocumentCtx_SetDocument aCtx sp base oldFieldCount).2 = -1
    ∧ (AddDocumentCtx_SetDocument aCtx sp base oldFieldCount).1.status.code
        = QueryErrorCode.eDupField
    ∧ (AddDocumentCtx_SetDocument aCtx sp base oldFieldCount).1.sv = aCtx.sv
    ∧ (AddDocumentCtx_SetDocument aCtx sp base oldFieldCount).1.fwIdx = aCtx.fwIdx := by
  have hcl : ordClash [] (resolvedOrds sp base.fields) = true :=
    ordClash_of_not_nodup _ [] List.nodup_nil (by simpa using hdup)
  have hlen2 : base.fields.length ≤
      (if oldFieldCount < base.fields.length
        then resizeTo aCtx.fspecs base.fields.length none else aCtx.fspecs).length := by
    by_cases h : oldFieldCount < base.fields.length
    · simp [h, resizeTo_length]
    · rcases hlen with h1 | h1
      · exact absurd h1 h
      · simp [h, h1]
  have hsome := setDocLoop_some_of_clash sp base.fields _ {} hlen2 (by simpa using hcl)
  rcases hr : setDocLoop sp base.fields
      (if oldFieldCount < base.fields.length
        then resizeTo aCtx.fspecs base.fields.length none else aCtx.fspecs) {}
    with ⟨specs, acc, err⟩
  cases err with
  | none => rw [hr] at hsome; simp at hsome
  | some d =>
    simp [AddDocumentCtx_SetDocument, hr, QueryError_SetErrorFmt, QueryError_SetError, hok]

/-- Claim C9: when attachment fails inside `NewAddDocumentCtx`, the context
is released back to the pool with no completion callback; the error is copied
into the caller-supplied status object and NULL is returned. -/
theorem newctx_failure_no_callback (sp : IndexSpec) (recycled : RSAddDocumentCtx)
    (b : Document)
    (hfail : (AddDocumentCtx_SetDocument (newCtxReset recycled) sp b
        (newCtxReset recycled).doc.fields.length).2 ≠ 0) :
    (NewAddDocumentCtx sp recycled b).1 = none
    ∧ (NewAddDocumentCtx sp recycled b).2.2 = [Event.release]
    ∧ (∀ c, Event.callback c ∉ (NewAddDocumentCtx sp recycled b).2.2)
    ∧ (NewAddDocumentCtx sp recycled b).2.1
        = (AddDocumentCtx_SetDocument (newCtxReset recycled) sp b
            (newCtxReset recycled).doc.fields.length).1.status := by
  rcases hr : AddDocumentCtx_SetDocument (newCtxReset recycled) sp b
      (newCtxReset recycled).doc.fields.length with ⟨c1, rc⟩
  rw [hr] at hfail
  simp only at hfail
  simp [NewAddDocumentCtx, hr, hfail]

/-! ## Trace lemmas about the completion protocol and the indexer -/

theorem finish_filter_cbRel (c : RSAddDocumentCtx) (h : c.donecb = true) :
    (AddDocumentCtx_Finish c).filter isCbRel
      = [Event.callback c.status.code, Event.release] := by
  cases hb : c.flags.noBlock <;>
    simp [AddDocumentCtx_Finish, doReplyFinish, AddDocumentCtx_Free, hb, h, isCbRel]

theorem finish_filter_isIndexMut (c : RSAddDocumentCtx) :
    (AddDocumentCtx_Finish c).filter isIndexMut = [] := by
  cases hb : c.flags.noBlock <;> cases hd : c.donecb <;>
    simp [AddDocumentCtx_Finish, doReplyFinish, AddDocumentCtx_Free, hb, hd, isIndexMut]

theorem finish_filter_sched (c : RSAddDocumentCtx) :
    (AddDocumentCtx_Finish c).filter isSchedEvt = [] := by
  cases hb : c.flags.noBlock <;> cases hd : c.donecb <;>
    simp [AddDocumentCtx_Finish, doReplyFinish, AddDocumentCtx_Free, hb, hd, isSchedEvt]

theorem finish_no_tpr (c : RSAddDocumentCtx) :
    Event.threadPoolRun ∉ AddDocumentCtx_Finish c := by
  cases hb : c.flags.noBlock <;> cases hd : c.donecb <;>
    simp [AddDocumentCtx_Finish, doReplyFinish, AddDocumentCtx_Free, hb, hd]

theorem bulkAddEvents_mem (c : RSAddDocumentCtx) (e : Event) (h : e ∈ bulkAddEvents c) :
    (∃ t, e = Event.bulkAdd t) ∨ e = Event.commitFwd := by
  simp [bulkAddEvents] at h
  rcases h with h | h
  · rcases h with ⟨os, _hos, hg⟩
    rcases os with _ | fs
    · simp at hg
    · by_cases hf : fs.ftype = FieldType.fulltext <;> simp [hf] at hg
      exact Or.inl ⟨fs.ftype, hg.symm⟩
  · exact Or.inr h

theorem bulkAddEvents_filter_cbRel (c : RSAddDocumentCtx) :
    (bulkAddEvents c).filter isCbRel = [] := by
  rw [List.filter_eq_nil_iff]
  intro e he
  rcases bulkAddEvents_mem c e he with ⟨t, rfl⟩ | rfl <;> simp [isCbRel]

theorem bulkAddEvents_filter_sched (c : RSAddDocumentCtx) :
    (bulkAddEvents c).filter isSchedEvt = [] := by
  rw [List.filter_eq_nil_iff]
  intro e he
  rcases bulkAddEvents_mem c e he with ⟨t, rfl⟩ | rfl <;> simp [isSchedEvt]

theorem bulkAddEvents_no_tpr (c : RSAddDocumentCtx) :
    Event.threadPoolRun ∉ bulkAddEvents c := by
  intro h
  rcases bulkAddEvents_mem c _ h with ⟨t, ht⟩ | ht <;> simp at ht

theorem addToIndexes_filter_cbRel (env : Env) (c : RSAddDocumentCtx) (h : c.donecb = true) :
    ∃ cd, ((Document_AddToIndexes env c).2).filter isCbRel
      = [Event.callback cd, Event.release] := by
  rcases hp : ppLoop env c.doc.fields c.fspecs c.fdatas (ctxPPState c) c.status
    with ⟨fl, dl, st, q, ok⟩
  cases ok with
  | false =>
    simp only [Document_AddToIndexes, hp]
    refine ⟨_, finish_filter_cbRel _ ?_⟩
    exact h
  | true =>
    cases hio : env.indexerOk with
    | false =>
      simp only [Document_AddToIndexes, hp, Indexer_Add, hio]
      simp only [Bool.false_eq_true, if_false]
      refine ⟨_, finish_filter_cbRel _ ?_⟩
      exact h
    | true =>
      simp only [Document_AddToIndexes, hp, Indexer_Add, hio, if_true]
      rw [List.filter_append, bulkAddEvents_filter_cbRel, List.nil_append]
      refine ⟨_, finish_filter_cbRel _ ?_⟩
      exact h

theorem addToIndexes_filter_sched (env : Env) (c : RSAddDocumentCtx) :
    ((Document_AddToIndexes env c).2).filter isSchedEvt = [] := by
  rcases hp : ppLoop env c.doc.fields c.fspecs c.fdatas (ctxPPState c) c.status
    with ⟨fl, dl, st, q, ok⟩
  cases ok with
  | false =>
    simp only [Document_AddToIndexes, hp]
    exact finish_filter_sched _
  | true =>
    cases hio : env.indexerOk with
    | false =>
      simp only [Document_AddToIndexes, hp, Indexer_Add, hio]
      simp only [Bool.false_eq_true, if_false]
      exact finish_filter_sched _
    | true =>
      simp only [Document_AddToIndexes, hp, Indexer_Add, hio, if_true]
      rw [List.filter_append, bulkAddEvents_filter_sched]
      simpa using finish_filter_sched _

theorem addToIndexes_no_tpr (env : Env) (c : RSAddDocumentCtx) :
    Event.threadPoolRun ∉ (Document_AddToIndexes env c).2 := by
  rcases hp : ppLoop env c.doc.fields c.fspecs c.fdatas (ctxPPState c) c.status
    with ⟨fl, dl, st, q, ok⟩
  cases ok with
  | false =>
    simp only [Document_AddToIndexes, hp]
    exact finish_no_tpr _
  | true =>
    cases hio : env.indexerOk with
    | false =>
      simp only [Document_AddToIndexes, hp, Indexer_Add, hio]
      simp only [Bool.false_eq_true, if_false]
      exact finish_no_tpr _
    | true =>
      simp only [Document_AddToIndexes, hp, Indexer_Add, hio, if_true]
      rw [List.mem_append]
      rintro (h | h)
      · exact bulkAddEvents_no_tpr _ h
      · exact finish_no_tpr _ h

/-- Claim C7: a numeric field whose raw value does not parse makes the
numeric preprocessor return -1 with `QUERY_EPARSEARGS`, leaving the context
state (sort vector included) untouched; and whenever the preprocessing pass
fails, `Document_AddToIndexes` performs no shared-index mutation (so the
numeric range tree is never touched for that document). -/
theorem numeric_parse_error_no_mutation (env : Env) (st : PPState)
    (field : DocumentField) (fs : FieldSpec) (fdata : FieldData) (status : QueryError)
    (aCtx : RSAddDocumentCtx)
    (hparse : env.parseDouble (field.text.getD "") = none) :
    ((numericPreprocessor env st field fs fdata status).rc = -1
      ∧ (numericPreprocessor env st field fs fdata status).st = st
      ∧ (numericPreprocessor env st field fs fdata status).fdata = fdata
      ∧ (numericPreprocessor env st field fs fdata status).field = field
      ∧ (numericPreprocessor env st field fs fdata status).status
          = QueryError_SetCode status QueryErrorCode.eParseArgs
      ∧ (status.code = QueryErrorCode.ok →
          (numericPreprocessor env st field fs fdata status).status.code
            = QueryErrorCode.eParseArgs))
    ∧ (ppLoopOk env aCtx = false →
        ((Document_AddToIndexes env aCtx).2).filter isIndexMut = []) := by
  constructor
  · refine ⟨?_, ?_, ?_, ?_, ?_, ?_⟩
    any_goals simp [numericPreprocessor, hparse, QueryError_SetCode]
    intro h
    simp [numericPreprocessor, hparse, QueryError_SetCode, h]
  · intro hfail
    rcases hp : ppLoop env aCtx.doc.fields aCtx.fspecs aCtx.fdatas (ctxPPState aCtx) aCtx.status
      with ⟨fl, dl, st1, q, ok⟩
    have hok : ok = false := by
      have : ppLoopOk env aCtx = ok := by simp [ppLoopOk, hp]
      rw [this] at hfail; exact hfail
    subst hok
    simp only [Document_AddToIndexes, hp]
    exact finish_filter_isIndexMut _

/-- Witness for claim C7: the value "abc" in the numeric field of `wDocBad`. -/
theorem numeric_parse_error_no_mutation_witness :
    (numericPreprocessor wEnv {} { name := "n", text := some "abc" } wFsN
        FieldData.unset {}).rc = -1
    ∧ ((Document_AddToIndexes wEnv wCtxBad).2).filter isIndexMut = [] :=
  ⟨(numeric_parse_error_no_mutation wEnv {} { name := "n", text := some "abc" } wFsN
      FieldData.unset {} {} (by decide)).1.1,
   (numeric_parse_error_no_mutation wEnv {} { name := "n", text := some "abc" } wFsN
      FieldData.unset {} wCtxBad (by decide)).2 (by decide)⟩

/-- Claim C8 counterexample: the claim that every non-full-text preprocessor
only writes the out-parameter FieldData is false — the numeric preprocessor
writes the context's sort vector for a sortable numeric field (value "3"). -/
theorem preproc_frame_cex :
    ¬ (∀ (env : Env) (st : PPState) (f : DocumentField) (fs : FieldSpec)
        (fd : FieldData) (q : QueryError), fs.ftype ≠ FieldType.fulltext →
        (GetIndexPreprocessor env fs.ftype st f fs fd q).st = st
        ∧ (GetIndexPreprocessor env fs.ftype st f fs fd q).field = f) := by
  intro h
  have h2 := (h wEnv { sv := some (NewSortingVector 3) } { name := "n", text := some "3" }
      wFsN FieldData.unset {} (by decide)).1
  exact absurd h2 (by decide)

/-- Claim C8 (amended): for numeric, geo and tag fields the preprocessor
never touches the forward-index builder or the token counter; it leaves the
whole context state unchanged unless the field is sortable; the geo
preprocessor never touches the context state at all (it rewrites the raw
field value in place instead); numeric and tag preprocessors never rewrite
the raw field value. -/
theorem preproc_frame_amended (env : Env) (st : PPState) (f : DocumentField)
    (fs : FieldSpec) (fd : FieldData) (q : QueryError)
    (h : fs.ftype ≠ FieldType.fulltext) :
    (GetIndexPreprocessor env fs.ftype st f fs fd q).st.fwIdx = st.fwIdx
    ∧ (GetIndexPreprocessor env fs.ftype st f fs fd q).st.totalTokens = st.totalTokens
    ∧ (fs.sortable = false → (GetIndexPreprocessor env fs.ftype st f fs fd q).st = st)
    ∧ (fs.ftype = FieldType.geo → (GetIndexPreprocessor env fs.ftype st f fs fd q).st = st)
    ∧ (fs.ftype = FieldType.numeric ∨ fs.ftype = FieldType.tag →
        (GetIndexPreprocessor env fs.ftype st f fs fd q).field = f) := by
  cases hft : fs.ftype with
  | fulltext => exact absurd hft h
  | numeric =>
    rcases hpd : env.parseDouble (f.text.getD "") with _ | v <;>
      cases hs : fs.sortable <;>
        simp [GetIndexPreprocessor, numericPreprocessor, hpd, hs, svPutOpt]
  | geo =>
    rcases hsp : strpbrkSplit (f.text.getD "") with _ | ⟨lon, lat⟩ <;>
      simp [GetIndexPreprocessor, geoPreprocessor, hsp]
  | tag =>
    rcases htg : env.tagPreprocess (f.text.getD "") with _ | ts <;>
      cases hs : fs.sortable <;>
        simp [GetIndexPreprocessor, tagPreprocessor, htg, hs, svPutOpt]

/-- Witness for claim C8 (amended): a sortable tag field with a concrete
value. -/
theorem preproc_frame_amended_witness :
    (GetIndexPreprocessor wEnv wFsA.ftype {} { name := "a", text := some "x" } wFsA
        FieldData.unset {}).st.fwIdx = ({} : PPState).fwIdx :=
  (preproc_frame_amended wEnv {} { name := "a", text := some "x" } wFsA
      FieldData.unset {} (by decide)).1

/-- Claim C6: in the metadata-only update loop, a second sortable resolution
of a schema ordinal already in the dedup set fails with the Duplicate-Field
error string, and a sortable field whose type is neither full-text nor
numeric fails with the Unsupported-Type error string. -/
theorem metadata_update_duplicate_and_unsupported (env : Env) (sp : IndexSpec)
    (f : DocumentField) (rest : List DocumentField) (dedupes : List Nat)
    (md : RSDocumentMetadata) :
    (∀ fs, IndexSpec_GetField sp f.name = some fs → fs.sortable = true →
        fs.index ∈ dedupes →
        updLoop env sp (f :: rest) dedupes md = (md, some DUP_FIELD_ERRSTR))
    ∧ (∀ fs, IndexSpec_GetField sp f.name = some fs → fs.sortable = true →
        fs.index ∉ dedupes → 0 ≤ fs.sortIdx →
        (fs.ftype = FieldType.geo ∨ fs.ftype = FieldType.tag) →
        (updLoop env sp (f :: rest) dedupes md).2
          = some "Unsupported sortable type") := by
  constructor
  · intro fs hg hs hd
    simp [updLoop, hg, hs, hd]
  · intro fs hg hs hd hidx hft
    have hnlt : ¬ (IndexSpec_GetFieldSortingIndex sp f.name < 0) := by
      simp [IndexSpec_GetFieldSortingIndex, hg, hs]
      omega
    rcases hft with hft | hft <;>
      simp [updLoop, hg, hs, hd, hnlt, hft]

/-- Witness for claim C6: ordinal 1 already seen (duplicate slot), and the
sortable geo field `wFsG` (unsupported type). -/
theorem metadata_update_duplicate_and_unsupported_witness :
    updLoop wEnv wSpec [{ name := "n", text := some "3" }] [1] {}
      = ({}, some DUP_FIELD_ERRSTR)
    ∧ (updLoop wEnv wSpec [{ name := "g", text := some "1,2" }] [] {}).2
        = some "Unsupported sortable type" :=
  ⟨(metadata_update_duplicate_and_unsupported wEnv wSpec
      { name := "n", text := some "3" } [] [1] {}).1 wFsN (by decide) (by decide) (by decide),
   (metadata_update_duplicate_and_unsupported wEnv wSpec
      { name := "g", text := some "1,2" } [] [] {}).2 wFsG (by decide) (by decide)
      (by decide) (by decide) (by decide)⟩

theorem updLoop_preserves_score_payload (env : Env) (sp : IndexSpec)
    (fields : List DocumentField) :
    ∀ (dedupes : List Nat) (md : RSDocumentMetadata),
      (updLoop env sp fields dedupes md).1.score = md.score
      ∧ (updLoop env sp fields dedupes md).1.payload = md.payload := by
  induction fields with
  | nil => intro dedupes md; simp [updLoop]
  | cons f rest ih =>
    intro dedupes md
    cases hg : IndexSpec_GetField sp f.name with
    | none => simpa [updLoop, hg] using ih dedupes md
    | some fs =>
      cases hs : fs.sortable with
      | false => simpa [updLoop, hg, hs] using ih dedupes md
      | true =>
        by_cases hd : fs.index ∈ dedupes
        · simp [updLoop, hg, hs, hd]
        · by_cases hlt : IndexSpec_GetFieldSortingIndex sp f.name < 0
          · simpa [updLoop, hg, hs, hd, hlt] using ih (fs.index :: dedupes) md
          · cases hft : fs.ftype with
            | fulltext =>
              simp only [updLoop, hg, hs, hd, hlt, hft]
              simp only [Bool.not_true, Bool.false_eq_true, if_false, if_neg hd, if_neg hlt]
              constructor
              · rw [(ih _ _).1]
                by_cases hsv : md.sortVector.isNone <;> simp [hsv]
              · rw [(ih _ _).2]
                by_cases hsv : md.sortVector.isNone <;> simp [hsv]
            | numeric =>
              rcases hpd : env.parseDouble (f.text.getD "") with _ | v
              · simp only [updLoop, hg, hs, hd, hlt, hft, hpd]
                simp only [Bool.not_true, Bool.false_eq_true, if_false, if_neg hd, if_neg hlt]
                constructor
                · by_cases hsv : md.sortVector.isNone <;> simp [hsv]
                · by_cases hsv : md.sortVector.isNone <;> simp [hsv]
              · simp only [updLoop, hg, hs, hd, hlt, hft, hpd]
                simp only [Bool.not_true, Bool.false_eq_true, if_false, if_neg hd, if_neg hlt]
                constructor
                · rw [(ih _ _).1]
                  by_cases hsv : md.sortVector.isNone <;> simp [hsv]
                · rw [(ih _ _).2]
                  by_cases hsv : md.sortVector.isNone <;> simp [hsv]
            | geo =>
              simp only [updLoop, hg, hs, hd, hlt, hft]
              simp only [Bool.not_true, Bool.false_eq_true, if_false, if_neg hd, if_neg hlt]
              constructor
              · by_cases hsv : md.sortVector.isNone <;> simp [hsv]
              · by_cases hsv : md.sortVector.isNone <;> simp [hsv]
            | tag =>
              simp only [updLoop, hg, hs, hd, hlt, hft]
              simp only [Bool.not_true, Bool.false_eq_true, if_false, if_neg hd, if_neg hlt]
              constructor
              · by_cases hsv : md.sortVector.isNone <;> simp [hsv]
              · by_cases hsv : md.sortVector.isNone <;> simp [hsv]

theorem mdApplyScorePayload_score (md : RSDocumentMetadata) (doc : Document) :
    (mdApplyScorePayload md doc).score = doc.score := by
  cases hp : doc.payload <;> simp [mdApplyScorePayload, hp]

theorem mdApplyScorePayload_payload (md : RSDocumentMetadata) (doc : Document)
    (p : String) (hp : doc.payload = some p) :
    (mdApplyScorePayload md doc).payload = some p := by
  simp [mdApplyScorePayload, hp]

/-- Claim C10: the metadata-only branch is not atomic on error: the score
(and the payload, when supplied) are written into the metadata before the
sortable loop runs, so a request that fails inside the loop still leaves
them updated in the stored metadata, and the generic error is surfaced
through the completion protocol. -/
theorem metadata_update_not_atomic (env : Env) (aCtx : RSAddDocumentCtx)
    (sctx : RedisSearchCtx) (md : RSDocumentMetadata) (e : String)
    (hsort : aCtx.flags.sortables = true)
    (hid : ¬ sctx.docIds aCtx.doc.docKey = 0)
    (hmd : sctx.docMds (sctx.docIds aCtx.doc.docKey) = some md)
    (hok : aCtx.status.code = QueryErrorCode.ok)
    (herr : (updLoop env sctx.spec aCtx.doc.fields []
        (mdApplyScorePayload md aCtx.doc)).2 = some e) :
    ∃ md1, (AddDocumentCtx_UpdateNoIndex env aCtx sctx).1.docMds
        (sctx.docIds aCtx.doc.docKey) = some md1
      ∧ md1.score = aCtx.doc.score
      ∧ (∀ p, aCtx.doc.payload = some p → md1.payload = some p)
      ∧ (AddDocumentCtx_UpdateNoIndex env aCtx sctx).2
          = [Event.callback QueryErrorCode.eGeneric, Event.release] := by
  rcases hr : updLoop env sctx.spec aCtx.doc.fields [] (mdApplyScorePayload md aCtx.doc)
    with ⟨md1, err⟩
  rw [hr] at herr
  simp only at herr
  subst herr
  refine ⟨md1, ?_, ?_, ?_, ?_⟩
  · simp [AddDocumentCtx_UpdateNoIndex, hid, hmd, hsort, hr]
  · have := (updLoop_preserves_score_payload env sctx.spec aCtx.doc.fields []
      (mdApplyScorePayload md aCtx.doc)).1
    rw [hr] at this
    simp only at this
    rw [this, mdApplyScorePayload_score]
  · intro p hp
    have := (updLoop_preserves_score_payload env sctx.spec aCtx.doc.fields []
      (mdApplyScorePayload md aCtx.doc)).2
    rw [hr] at this
    simp only at this
    rw [this, mdApplyScorePayload_payload md aCtx.doc p hp]
  · simp [AddDocumentCtx_UpdateNoIndex, hid, hmd, hsort, hr, QueryError_SetError, hok]

/-- Witness for claim C10: a duplicate sortable field makes the loop fail
while score is already written. -/
theorem metadata_update_not_atomic_witness :
    ∃ md1, (AddDocumentCtx_UpdateNoIndex wEnv wCtxDup wSctx).1.docMds
        (wSctx.docIds wCtxDup.doc.docKey) = some md1
      ∧ md1.score = wCtxDup.doc.score
      ∧ (∀ p, wCtxDup.doc.payload = some p → md1.payload = some p)
      ∧ (AddDocumentCtx_UpdateNoIndex wEnv wCtxDup wSctx).2
          = [Event.callback QueryErrorCode.eGeneric, Event.release] :=
  metadata_update_not_atomic wEnv wCtxDup wSctx {} DUP_FIELD_ERRSTR rfl
    (by decide) (by decide) rfl (by decide)

theorem updateNoIndex_frame (env : Env) (c : RSAddDocumentCtx) (sctx : RedisSearchCtx) :
    (∃ cd, (AddDocumentCtx_UpdateNoIndex env c sctx).2
        = [Event.callback cd, Event.release])
    ∧ (AddDocumentCtx_UpdateNoIndex env c sctx).1.spec = sctx.spec
    ∧ (AddDocumentCtx_UpdateNoIndex env c sctx).1.docIds = sctx.docIds
    ∧ (∀ i, i ≠ sctx.docIds c.doc.docKey →
        (AddDocumentCtx_UpdateNoIndex env c sctx).1.docMds i = sctx.docMds i) := by
  by_cases hid : sctx.docIds c.doc.docKey = 0
  · refine ⟨?_, ?_, ?_, ?_⟩ <;> simp [AddDocumentCtx_UpdateNoIndex, hid]
  · rcases hm : sctx.docMds (sctx.docIds c.doc.docKey) with _ | md
    · refine ⟨?_, ?_, ?_, ?_⟩ <;> simp [AddDocumentCtx_UpdateNoIndex, hid, hm]
    · refine ⟨?_, ?_, ?_, ?_⟩ <;> simp [AddDocumentCtx_UpdateNoIndex, hid, hm]
      intro i hne
      simp [hne]

/-- Claim C5: a partial update with no indexable attached field runs the
metadata-only branch: the whole submission trace is one done callback
followed by one pool release — no bulk indexer, no forward or structural
index mutation, no client blocking and no worker-pool handoff, so completion
is synchronous — and only this document's metadata entry can change. -/
theorem metadata_only_branch_frame (env : Env) (aCtx : RSAddDocumentCtx)
    (sctx : RedisSearchCtx) (options : AddOpts)
    (hpart : options.partialFlag = true)
    (hi : aCtx.flags.indexables = false) :
    (∃ cd, (AddDocumentCtx_Submit env aCtx sctx options).2
        = [Event.callback cd, Event.release])
    ∧ (AddDocumentCtx_Submit env aCtx sctx options).1.spec = sctx.spec
    ∧ (AddDocumentCtx_Submit env aCtx sctx options).1.docIds = sctx.docIds
    ∧ (∀ i, i ≠ sctx.docIds aCtx.doc.docKey →
        (AddDocumentCtx_Submit env aCtx sctx options).1.docMds i = sctx.docMds i) := by
  have h := updateNoIndex_frame env { aCtx with options := options } sctx
  rcases hu : AddDocumentCtx_UpdateNoIndex env { aCtx with options := options } sctx
    with ⟨sctx1, ev⟩
  rw [hu] at h
  simp only at h
  simpa [AddDocumentCtx_Submit, hpart, handlePartialUpdate, hi, hu] using h

/-- Witness for claim C5: the concrete sortable-only context `wCtxDup`. -/
theorem metadata_only_branch_frame_witness :
    ∃ cd, (AddDocumentCtx_Submit wEnv wCtxDup wSctx { partialFlag := true }).2
      = [Event.callback cd, Event.release] :=
  (metadata_only_branch_frame wEnv wCtxDup wSctx { partialFlag := true } rfl rfl).1

/-- Witness for claim C2: `wDocDup` names schema field "t" twice. -/
theorem attach_duplicate_field_aborts_witness :
    (AddDocumentCtx_SetDocument {} wSpec wDocDup 0).2 = -1
    ∧ (AddDocumentCtx_SetDocument {} wSpec wDocDup 0).1.status.code
        = QueryErrorCode.eDupField :=
  ⟨(attach_duplicate_field_aborts {} wSpec wDocDup 0 (Or.inl (by decide)) rfl (by decide)).1,
   (attach_duplicate_field_aborts {} wSpec wDocDup 0 (Or.inl (by decide)) rfl (by decide)).2.1⟩

/-- Witness for claim C9: acquiring a context for the duplicate document
`wDocDup` fails, releasing the context without any callback. -/
theorem newctx_failure_no_callback_witness :
    (NewAddDocumentCtx wSpec {} wDocDup).1 = none
    ∧ (NewAddDocumentCtx wSpec {} wDocDup).2.2 = [Event.release] :=
  ⟨(newctx_failure_no_callback wSpec {} wDocDup (by decide)).1,
   (newctx_failure_no_callback wSpec {} wDocDup (by decide)).2.1⟩

theorem setDocument_donecb (a : RSAddDocumentCtx) (sp : IndexSpec) (b : Document)
    (n : Nat) : (AddDocumentCtx_SetDocument a sp b n).1.donecb = a.donecb := by
  rcases hr : setDocLoop sp b.fields
      (if n < b.fields.length then resizeTo a.fspecs b.fields.length none else a.fspecs) {}
    with ⟨specs, acc, err⟩
  cases err <;> simp [AddDocumentCtx_SetDocument, hr]

/-- Claim C3: a partial update with at least one indexable attached field
takes the reindex branch: it requests the current stored value of every
schema field (not only the supplied ones) before re-running attachment over
the loaded set; when the load fails, the submission trace is exactly the
load followed by a `QUERY_ENODOC` callback and the pool release — no index
mutation, and the search context is untouched. -/
theorem partial_reindex_reload (env : Env) (aCtx : RSAddDocumentCtx)
    (sctx : RedisSearchCtx) (options : AddOpts)
    (hpart : options.partialFlag = true)
    (hi : aCtx.flags.indexables = true)
    (hok : aCtx.status.code = QueryErrorCode.ok) :
    (env.loadDocument aCtx.doc.docKey (sctx.spec.fields.map (fun fs => fs.name)) = none →
      (AddDocumentCtx_Submit env aCtx sctx options).2
        = [Event.loadDoc (sctx.spec.fields.map (fun fs => fs.name)),
           Event.callback QueryErrorCode.eNoDoc, Event.release]
      ∧ (AddDocumentCtx_Submit env aCtx sctx options).1 = sctx)
    ∧ (∀ loaded,
        env.loadDocument aCtx.doc.docKey (sctx.spec.fields.map (fun fs => fs.name))
          = some loaded →
        AddDocumentCtx_ReplaceMerge env { aCtx with options := options } sctx
          = (0,
             (AddDocumentCtx_SetDocument
               { aCtx with options := options, doc := { aCtx.doc with fields := loaded } }
               sctx.spec { aCtx.doc with fields := loaded } aCtx.doc.fields.length).1,
             [Event.loadDoc (sctx.spec.fields.map (fun fs => fs.name))])) := by
  constructor
  · intro hload
    constructor <;>
      simp [AddDocumentCtx_Submit, hpart, handlePartialUpdate, hi,
        AddDocumentCtx_ReplaceMerge, hload, AddDocumentCtx_Free,
        QueryError_SetError, hok]
  · intro loaded hload
    simp [AddDocumentCtx_ReplaceMerge, hload]

/-- Witness for claim C3: `wCtxT` carries an indexable field and `wEnv`
cannot load the stored document. -/
theorem partial_reindex_reload_witness :
    (AddDocumentCtx_Submit wEnv wCtxT wSctx { partialFlag := true }).2
      = [Event.loadDoc (wSctx.spec.fields.map (fun fs => fs.name)),
         Event.callback QueryErrorCode.eNoDoc, Event.release] :=
  ((partial_reindex_reload wEnv wCtxT wSctx { partialFlag := true } rfl
      (by decide) (by decide)).1 (by decide)).1

theorem submitSched_filter_sched (env : Env) (c : RSAddDocumentCtx) :
    (submitSched env c).filter isSchedEvt = [Event.schedule (submitOffload c)] := by
  cases hb : AddDocumentCtx_IsBlockable c <;> cases ho : submitOffload c <;>
    simp [submitSched, hb, ho, isSchedEvt, addToIndexes_filter_sched]

theorem submitSched_tpr (env : Env) (c : RSAddDocumentCtx) :
    Event.threadPoolRun ∈ submitSched env c ↔ submitOffload c = true := by
  cases hb : AddDocumentCtx_IsBlockable c <;> cases ho : submitOffload c <;>
    simp [submitSched, hb, ho, addToIndexes_no_tpr]

theorem submitSched_filter_cbRel (env : Env) (c : RSAddDocumentCtx)
    (h : c.donecb = true) :
    ∃ cd, (submitSched env c).filter isCbRel = [Event.callback cd, Event.release] := by
  obtain ⟨cd, hcd⟩ := addToIndexes_filter_cbRel env c h
  refine ⟨cd, ?_⟩
  cases hb : AddDocumentCtx_IsBlockable c <;> cases ho : submitOffload c <;>
    simp [submitSched, hb, ho, isCbRel, hcd]

/-- Claim C4: the offload decision of `AddDocumentCtx_Submit` is taken
exactly once, both for non-partial submissions and for the reindex branch of
a partial submission; the decision is true (worker pool) exactly when the
attached full-text/tag byte size reaches `SELF_EXEC_THRESHOLD` and the
request may block, and the worker-pool handoff occurs exactly when the
decision is true (otherwise indexing runs inline). -/
theorem scheduler_threshold (env : Env) (aCtx : RSAddDocumentCtx)
    (sctx : RedisSearchCtx) (options : AddOpts) :
    (∀ c : RSAddDocumentCtx, submitOffload c = true ↔
        (SELF_EXEC_THRESHOLD ≤ submitTotalSize c.doc.fields c.fspecs
          ∧ AddDocumentCtx_IsBlockable c = true))
    ∧ (options.partialFlag = false →
        ((AddDocumentCtx_Submit env aCtx sctx options).2).filter isSchedEvt
          = [Event.schedule (submitOffload { aCtx with options := options })]
        ∧ (Event.threadPoolRun ∈ (AddDocumentCtx_Submit env aCtx sctx options).2 ↔
            submitOffload { aCtx with options := options } = true))
    ∧ (∀ rc aCtx1 sctx1 ev,
        options.partialFlag = true →
        handlePartialUpdate env { aCtx with options := options } sctx
          = (rc, aCtx1, sctx1, ev) →
        rc = 0 →
        ((AddDocumentCtx_Submit env aCtx sctx options).2).filter isSchedEvt
          = [Event.schedule (submitOffload aCtx1)]
        ∧ (Event.threadPoolRun ∈ (AddDocumentCtx_Submit env aCtx sctx options).2 ↔
            submitOffload aCtx1 = true)) := by
  refine ⟨?_, ?_, ?_⟩
  · intro c
    simp [submitOffload]
  · intro hpart
    constructor
    · simp [AddDocumentCtx_Submit, hpart, submitSched_filter_sched]
    · simp [AddDocumentCtx_Submit, hpart, submitSched_tpr]
  · intro rc aCtx1 sctx1 ev hpart hcall hrc
    subst hrc
    have hev : ev.filter isSchedEvt = [] ∧ Event.threadPoolRun ∉ ev := by
      by_cases hi : aCtx.flags.indexables = true
      · rcases hload : env.loadDocument aCtx.doc.docKey
            (sctx.spec.fields.map (fun fs => fs.name)) with _ | loaded
        · simp only [handlePartialUpdate, hi, if_true, AddDocumentCtx_ReplaceMerge,
            hload, AddDocumentCtx_Free] at hcall
          simp at hcall
        · simp only [handlePartialUpdate, hi, if_true, AddDocumentCtx_ReplaceMerge,
            hload] at hcall
          have hev2 : ev = [Event.loadDoc (sctx.spec.fields.map (fun fs => fs.name))] := by
            have := congrArg (fun p => p.2.2.2) hcall
            simpa using this.symm
          subst hev2
          simp [isSchedEvt]
      · rcases hu : AddDocumentCtx_UpdateNoIndex env { aCtx with options := options } sctx
          with ⟨s2, e2⟩
        simp only [handlePartialUpdate, hi, if_false, hu] at hcall
        simp at hcall
    constructor
    · simp [AddDocumentCtx_Submit, hpart, hcall, List.filter_append, hev.1,
        submitSched_filter_sched]
    · simp [AddDocumentCtx_Submit, hpart, hcall, hev.2, submitSched_tpr]

/-- Witness for claim C4: a concrete non-partial submission. -/
theorem scheduler_threshold_witness :
    ((AddDocumentCtx_Submit wEnv wCtxT wSctx {}).2).filter isSchedEvt
      = [Event.schedule (submitOffload { wCtxT with options := ({} : AddOpts) })] :=
  ((scheduler_threshold wEnv wCtxT wSctx {}).2.1 rfl).1

theorem handlePartial_trace (env : Env) (c : RSAddDocumentCtx) (sctx : RedisSearchCtx)
    (h : c.donecb = true) :
    (¬ (handlePartialUpdate env c sctx).1 = 0
      ∧ ∃ cd, ((handlePartialUpdate env c sctx).2.2.2).filter isCbRel
          = [Event.callback cd, Event.release])
    ∨ ((handlePartialUpdate env c sctx).1 = 0
      ∧ ((handlePartialUpdate env c sctx).2.2.2).filter isCbRel = []
      ∧ (handlePartialUpdate env c sctx).2.1.donecb = true) := by
  by_cases hi : c.flags.indexables = true
  · rcases hload : env.loadDocument c.doc.docKey
        (sctx.spec.fields.map (fun fs => fs.name)) with _ | loaded
    · left
      constructor
      · simp [handlePartialUpdate, hi, AddDocumentCtx_ReplaceMerge, hload]
      · simp [handlePartialUpdate, hi, AddDocumentCtx_ReplaceMerge, hload,
          AddDocumentCtx_Free, isCbRel]
    · right
      refine ⟨?_, ?_, ?_⟩
      · simp [handlePartialUpdate, hi, AddDocumentCtx_ReplaceMerge, hload]
      · simp [handlePartialUpdate, hi, AddDocumentCtx_ReplaceMerge, hload, isCbRel]
      · simp [handlePartialUpdate, hi, AddDocumentCtx_ReplaceMerge, hload,
          setDocument_donecb]
        exact h
  · left
    obtain ⟨cd, hcd⟩ := (updateNoIndex_frame env c sctx).1
    rcases hu : AddDocumentCtx_UpdateNoIndex env c sctx with ⟨s1, e1⟩
    rw [hu] at hcd
    simp only at hcd
    constructor
    · simp [handlePartialUpdate, hi, hu]
    · refine ⟨cd, ?_⟩
      simp [handlePartialUpdate, hi, hu, hcd, isCbRel]

/-- Claim C1: with a caller-supplied done callback, every submission invokes
the callback exactly once and releases the context to the pool exactly once,
callback first: the completion-protocol events of the full submission trace
are exactly one callback followed by one release, on every terminal path. -/
theorem completion_exactly_once (env : Env) (aCtx : RSAddDocumentCtx)
    (sctx : RedisSearchCtx) (options : AddOpts)
    (hdc : aCtx.donecb = true) :
    ∃ cd, ((AddDocumentCtx_Submit env aCtx sctx options).2).filter isCbRel
      = [Event.callback cd, Event.release] := by
  by_cases hpart : options.partialFlag = true
  · rcases hcall : handlePartialUpdate env { aCtx with options := options } sctx
      with ⟨rc, c1, s1, ev⟩
    have hpc := handlePartial_trace env { aCtx with options := options } sctx hdc
    rw [hcall] at hpc
    simp only at hpc
    rcases hpc with ⟨hrc, cd, hcd⟩ | ⟨hrc, hev, hdc1⟩
    · refine ⟨cd, ?_⟩
      simp [AddDocumentCtx_Submit, hpart, hcall, hrc, hcd]
    · obtain ⟨cd, hcd2⟩ := submitSched_filter_cbRel env c1 hdc1
      refine ⟨cd, ?_⟩
      simp [AddDocumentCtx_Submit, hpart, hcall, hrc, hev, hcd2]
  · obtain ⟨cd, hcd⟩ := submitSched_filter_cbRel env { aCtx with options := options } hdc
    exact ⟨cd, by simp [AddDocumentCtx_Submit, hpart, hcd]⟩

/-- Witness for claim C1: a concrete full submission. -/
theorem completion_exactly_once_witness :
    ∃ cd, ((AddDocumentCtx_Submit wEnv wCtxT wSctx {}).2).filter isCbRel
      = [Event.callback cd, Event.release] :=
  completion_exactly_once wEnv wCtxT wSctx {} (by decide)

end RediSearch
